import Mathlib

/-!
Verification of `scripts/analyze-session.py`: a two-pass analyzer for
line-delimited JSON session logs.  The development shallowly embeds the
script's data model and operations:

* JSON values are the mutual inductive `Json` / `JArr` / `JObj`.
* One input line is an `Option Json`: `none` models a line on which
  `json.loads` raises `JSONDecodeError` (the script skips such lines);
  `some obj` models a successfully decoded line.
* Python dictionaries keyed by arbitrary decoded values (tool names, model
  names, invocation identifiers) are association lists `List (Json × _)`
  with explicit upsert operations mirroring `defaultdict` semantics
  (update the existing entry in place, or append a fresh entry).
* Machine integers are `Int`/`Nat` (Python integers are unbounded, so no
  modular arithmetic is involved).

Deliberate modelling choices, noted where they matter: `dict.get(k, d)`
returns the default both when the key is absent; a JSON `null` value decodes
to Python `None`, which the embedding represents as `Json.null`.  Fields
whose ill-typed values would make Python raise `TypeError`/`AttributeError`
(for example a non-numeric `input_tokens`) are modelled by the same default
as an absent field; session logs carry correctly typed fields per the data
model, and no claim concerns such inputs.
-/

mutual

inductive Json where
  | null
  | bool (b : Bool)
  | num (n : Int)
  | str (s : String)
  | arr (elts : JArr)
  | obj (fields : JObj)
deriving DecidableEq

inductive JArr where
  | nil
  | cons (hd : Json) (tl : JArr)
deriving DecidableEq

inductive JObj where
  | nil
  | cons (key : String) (val : Json) (tl : JObj)
deriving DecidableEq

end

/-- Field access on a decoded object: `obj.get(key)` / `obj[key]`.
Objects produced by `json.loads` bind each key once, so first match is
dictionary access. -/
def JObj.get? : JObj → String → Option Json
  | .nil, _ => none
  | .cons k v tl, key => if k = key then some v else JObj.get? tl key

/-- `obj.get(key)` on an arbitrary decoded value; non-objects have no keys. -/
def Json.get? : Json → String → Option Json
  | .obj o, key => o.get? key
  | _, _ => none

/-- `key in obj` membership test. -/
def Json.hasKey (j : Json) (key : String) : Bool :=
  (j.get? key).isSome

/-- Python truthiness of a decoded JSON value: `None`, `False`, `0`, `""`,
`[]` and `{}` are falsy, everything else truthy. -/
def Json.truthy : Json → Bool
  | .null => false
  | .bool b => b
  | .num n => n != 0
  | .str s => s != ""
  | .arr .nil => false
  | .arr (.cons _ _) => true
  | .obj .nil => false
  | .obj (.cons _ _ _) => true

/-- Truthiness of `stats['session_id']`, which is `None` until adopted. -/
def optTruthy : Option Json → Bool
  | none => false
  | some j => j.truthy

def JArr.toList : JArr → List Json
  | .nil => []
  | .cons x tl => x :: JArr.toList tl

/-- Concatenation of object field lists (used for `snapshot['note'] = note`,
which appends one key in dict insertion order). -/
def JObj.concat : JObj → JObj → JObj
  | .nil, o => o
  | .cons k v tl, o => .cons k v (JObj.concat tl o)

/-! ## `json.dumps`: serialization with default options

`json.dumps(value)` uses separators `", "` and `": "` and `ensure_ascii=True`:
every character outside `0x20`–`0x7e`, plus `"` and `\`, is escaped; control
characters with short escapes use them; other escaped characters become
`\uXXXX` (a surrogate pair for code points beyond the BMP). -/

def hexDigitChars : List Char :=
  "0123456789abcdef".data

def hexDigit (n : Nat) : Char :=
  hexDigitChars.getD n '0'

def hex4 (n : Nat) : String :=
  String.mk [hexDigit (n / 4096 % 16), hexDigit (n / 256 % 16),
             hexDigit (n / 16 % 16), hexDigit (n % 16)]

/-- Escape of one character inside a serialized JSON string. -/
def escChar (c : Char) : String :=
  if c = '"' then "\\\""
  else if c = '\\' then "\\\\"
  else if c = '\x08' then "\\b"
  else if c = '\t' then "\\t"
  else if c = '\n' then "\\n"
  else if c = '\x0c' then "\\f"
  else if c = '\r' then "\\r"
  else if c.toNat < 0x20 ∨ 0x7e < c.toNat then
    if c.toNat < 0x10000 then "\\u" ++ hex4 c.toNat
    else
      "\\u" ++ hex4 (0xd800 + (c.toNat - 0x10000) / 0x400) ++
      "\\u" ++ hex4 (0xdc00 + (c.toNat - 0x10000) % 0x400)
  else String.singleton c

def escList : List Char → String
  | [] => ""
  | c :: cs => escChar c ++ escList cs

/-- Serialized JSON string literal: `"` + escaped characters + `"`. -/
def escString (s : String) : String :=
  "\"" ++ escList s.data ++ "\""

/-- Decimal digits of a natural number, most significant first; the fuel
argument bounds the recursion and is always supplied ≥ the digit count. -/
def natDigits : Nat → Nat → List Char
  | 0, _ => []
  | fuel + 1, n => if n < 10 then [hexDigit n] else natDigits fuel (n / 10) ++ [hexDigit (n % 10)]

/-- `str(i)` for a Python integer: decimal digits, `-` sign for negatives. -/
def intRepr (i : Int) : String :=
  match i with
  | .ofNat n => String.mk (natDigits (n + 1) n)
  | .negSucc m => "-" ++ String.mk (natDigits (m + 2) (m + 1))

mutual

/-- `json.dumps(value)` with default options. -/
def Json.dumps : Json → String
  | .null => "null"
  | .bool true => "true"
  | .bool false => "false"
  | .num n => intRepr n
  | .str s => escString s
  | .arr a => "[" ++ JArr.dumpsElts a ++ "]"
  | .obj o => "\x7b" ++ JObj.dumpsFields o ++ "\x7d"

def JArr.dumpsElts : JArr → String
  | .nil => ""
  | .cons x .nil => Json.dumps x
  | .cons x (.cons y tl) => Json.dumps x ++ ", " ++ JArr.dumpsElts (.cons y tl)

def JObj.dumpsFields : JObj → String
  | .nil => ""
  | .cons k v .nil => escString k ++ ": " ++ Json.dumps v
  | .cons k v (.cons k' v' tl) =>
      escString k ++ ": " ++ Json.dumps v ++ ", " ++ JObj.dumpsFields (.cons k' v' tl)

end

/-! ## Session Statistics data model (`stats` dictionary of `analyze_session`) -/

/-- One `tool_result_sizes` entry: `{'count': …, 'total_chars': …}`. -/
structure SizeEntry where
  count : Nat
  total_chars : Nat
deriving DecidableEq

/-- One `models` entry: `{'input': …, 'output': …, 'calls': …}`. -/
structure ModelEntry where
  input : Int
  output : Int
  calls : Nat
deriving DecidableEq

/-- The `tokens` sub-dictionary. -/
structure TokenTotals where
  input : Int
  output : Int
  cache_read : Int
  cache_creation : Int
deriving DecidableEq

/-- The `messages` sub-dictionary: fixed keys `user`, `assistant`, `system`. -/
structure MessageCounts where
  user : Nat
  assistant : Nat
  system : Nat
deriving DecidableEq

/-- The per-file `stats` dictionary returned by `analyze_session`.
`tool_calls`, `tool_result_sizes` and `models` are dictionaries keyed by
decoded values; they are kept as insertion-ordered association lists. -/
structure SessionStats where
  session_id : Option Json
  file : String
  messages : MessageCounts
  tool_calls : List (Json × Nat)
  tool_result_sizes : List (Json × SizeEntry)
  tokens : TokenTotals
  models : List (Json × ModelEntry)
  timestamps_first : Option String
  timestamps_last : Option String
deriving DecidableEq

def initStats (path : String) : SessionStats :=
  { session_id := none
    file := path
    messages := ⟨0, 0, 0⟩
    tool_calls := []
    tool_result_sizes := []
    tokens := ⟨0, 0, 0, 0⟩
    models := []
    timestamps_first := none
    timestamps_last := none }

/-! ## Dictionary upserts (`defaultdict` update / dict assignment) -/

/-- `d[k] += n` on a `defaultdict(int)`: update the entry in place, or append
a fresh entry holding `n` (the default 0 plus `n`). -/
def addCount : List (Json × Nat) → Json → Nat → List (Json × Nat)
  | [], k, n => [(k, n)]
  | (k', v) :: rest, k, n =>
      if k' = k then (k', v + n) :: rest else (k', v) :: addCount rest k n

/-- `d[k]['count'] += dc; d[k]['total_chars'] += dt` on the sizes
`defaultdict` (default entry `{'count': 0, 'total_chars': 0}`). -/
def addSize : List (Json × SizeEntry) → Json → Nat → Nat → List (Json × SizeEntry)
  | [], k, dc, dt => [(k, ⟨dc, dt⟩)]
  | (k', e) :: rest, k, dc, dt =>
      if k' = k then (k', ⟨e.count + dc, e.total_chars + dt⟩) :: rest
      else (k', e) :: addSize rest k dc dt

/-- The three `+=` updates to one `models` entry (default
`{'input': 0, 'output': 0, 'calls': 0}`). -/
def bumpModel : List (Json × ModelEntry) → Json → Int → Int → List (Json × ModelEntry)
  | [], k, din, dout => [(k, ⟨din, dout, 1⟩)]
  | (k', e) :: rest, k, din, dout =>
      if k' = k then (k', ⟨e.input + din, e.output + dout, e.calls + 1⟩) :: rest
      else (k', e) :: bumpModel rest k din dout

/-- `tool_names[tool_id] = tool_name`: dict assignment, overwriting any
existing binding for the key. -/
def idxSet : List (Json × Json) → Json → Json → List (Json × Json)
  | [], k, v => [(k, v)]
  | (k', v') :: rest, k, v =>
      if k' = k then (k', v) :: rest else (k', v') :: idxSet rest k v

/-- `tool_names.get(k)` lookup. -/
def idxGet : List (Json × Json) → Json → Option Json
  | [], _ => none
  | (k', v) :: rest, k => if k' = k then some v else idxGet rest k

/-! ## Pass 1: `tool_names` index and basic statistics -/

/-- `usage.get(key, 0)` for one of the four token counters. -/
def usageInt (usage : Json) (key : String) : Int :=
  match usage.get? key with
  | some (.num n) => n
  | _ => 0

/-- Session-id tracking: `if 'sessionId' in obj and not stats['session_id']`.
The Python guard is a truthiness test, not an `is None` test. -/
def sidStep (st : SessionStats) (obj : Json) : SessionStats :=
  if obj.hasKey "sessionId" && !optTruthy st.session_id then
    { st with session_id := obj.get? "sessionId" }
  else st

/-- Running-minimum update for the first timestamp:
`if first is None or ts < first: first = ts` with string comparison. -/
def updFirst (cur : Option String) (ts : String) : Option String :=
  match cur with
  | none => some ts
  | some f => if ts < f then some ts else some f

/-- Running-maximum update for the last timestamp. -/
def updLast (cur : Option String) (ts : String) : Option String :=
  match cur with
  | none => some ts
  | some l => if ts > l then some ts else some l

/-- Timestamp tracking.  Per the data model, `timestamp` carries an
ISO-8601 string; the update applies to string values (a non-string mixed
into string comparisons would make Python raise, and no claim concerns
such inputs). -/
def tsStep (st : SessionStats) (obj : Json) : SessionStats :=
  match obj.get? "timestamp" with
  | some (.str ts) =>
      { st with timestamps_first := updFirst st.timestamps_first ts
                timestamps_last := updLast st.timestamps_last ts }
  | _ => st

/-- Message-type counting for the three recognized types. -/
def typeStep (st : SessionStats) (obj : Json) : SessionStats :=
  if obj.get? "type" = some (.str "user") then
    { st with messages := { st.messages with user := st.messages.user + 1 } }
  else if obj.get? "type" = some (.str "assistant") then
    { st with messages := { st.messages with assistant := st.messages.assistant + 1 } }
  else if obj.get? "type" = some (.str "system") then
    { st with messages := { st.messages with system := st.messages.system + 1 } }
  else st

/-- Token and model accounting for one assistant message payload. -/
def usageStep (st : SessionStats) (msg : Json) : SessionStats :=
  let usage := (msg.get? "usage").getD (.obj .nil)
  let din := usageInt usage "input_tokens"
  let dout := usageInt usage "output_tokens"
  let dcr := usageInt usage "cache_read_input_tokens"
  let dcc := usageInt usage "cache_creation_input_tokens"
  let model := (msg.get? "model").getD (.str "unknown")
  { st with
      tokens := ⟨st.tokens.input + din, st.tokens.output + dout,
                 st.tokens.cache_read + dcr, st.tokens.cache_creation + dcc⟩
      models := bumpModel st.models model din dout }

/-- `msg.get('content', [])` as a block list.  Iterating a string yields
characters, never dict blocks, so non-list payloads contribute nothing. -/
def contentBlocks (msg : Json) : List Json :=
  match msg.get? "content" with
  | some (.arr a) => a.toList
  | _ => []

/-- Pass-1 handling of one content block: count the tool call; if the block
carries a truthy invocation id (`if tool_id:`), bind id → name in the index.
`block.get('name', 'unknown')` and `block.get('id')` default on absence;
a JSON `null` value is Python `None`. -/
def useBlockStep (p : SessionStats × List (Json × Json)) (block : Json) :
    SessionStats × List (Json × Json) :=
  match block with
  | .obj _ =>
      if block.get? "type" = some (.str "tool_use") then
        let tool_name := (block.get? "name").getD (.str "unknown")
        let tool_id := (block.get? "id").getD .null
        let st := { p.1 with tool_calls := addCount p.1.tool_calls tool_name 1 }
        if tool_id.truthy then (st, idxSet p.2 tool_id tool_name) else (st, p.2)
      else p
  | _ => p

/-- Pass-1 handling of the assistant branch:
`if record_type == 'assistant' and 'message' in obj`. -/
def assistantStep (p : SessionStats × List (Json × Json)) (obj : Json) :
    SessionStats × List (Json × Json) :=
  if obj.get? "type" = some (.str "assistant") && obj.hasKey "message" then
    let msg := (obj.get? "message").getD .null
    (contentBlocks msg).foldl useBlockStep (usageStep p.1 msg, p.2)
  else p

/-- Pass 1, one decoded record. -/
def pass1Obj (p : SessionStats × List (Json × Json)) (obj : Json) :
    SessionStats × List (Json × Json) :=
  assistantStep (typeStep (tsStep (sidStep p.1 obj) obj) obj, p.2) obj

/-! ## Pass 2: tool-result size attribution -/

/-- Content-size rule: string length; for a list, the summed serialized
length of each element; otherwise the serialized length of the payload. -/
def sizeSum : JArr → Nat
  | .nil => 0
  | .cons b tl => (Json.dumps b).length + sizeSum tl

def contentSize (content : Json) : Nat :=
  match content with
  | .str s => s.length
  | .arr a => sizeSum a
  | j => (Json.dumps j).length

/-- Pass-2 handling of one content block: resolve the tool name through the
index (`tool_names.get(tool_id, 'unknown')`) and accumulate the size. -/
def resultBlockStep (idx : List (Json × Json)) (st : SessionStats) (block : Json) :
    SessionStats :=
  match block with
  | .obj _ =>
      if block.get? "type" = some (.str "tool_result") then
        let tool_id := (block.get? "tool_use_id").getD .null
        let tool_name := (idxGet idx tool_id).getD (.str "unknown")
        let content := (block.get? "content").getD (.str "")
        { st with tool_result_sizes :=
            addSize st.tool_result_sizes tool_name 1 (contentSize content) }
      else st
  | _ => st

/-- Pass 2, one decoded record:
`if obj.get('type') == 'user' and 'message' in obj`, then only when the
message content is a list. -/
def pass2Obj (idx : List (Json × Json)) (st : SessionStats) (obj : Json) :
    SessionStats :=
  if obj.get? "type" = some (.str "user") && obj.hasKey "message" then
    match ((obj.get? "message").getD .null).get? "content" with
    | some (.arr blocks) => blocks.toList.foldl (resultBlockStep idx) st
    | _ => st
  else st

/-! ## The analyzer -/

/-- A fold over the decoded records of a file: lines that fail to decode
(`none`) are skipped, exactly as the `except json.JSONDecodeError: continue`
arms of both passes do. -/
def foldRecords {α : Type} (g : α → Json → α) (init : α) (lines : List (Option Json)) : α :=
  lines.foldl (fun a l => match l with | none => a | some obj => g a obj) init

/-- The `tool_names` invocation index built by pass 1 over a whole file. -/
def toolNamesIndex (lines : List (Option Json)) : List (Json × Json) :=
  (foldRecords pass1Obj (initStats "", []) lines).2

/-- `analyze_session`: two passes over the same line list.  The first pass
builds the invocation index and the basic statistics; the second pass
resolves tool-result blocks through the fully built index. -/
def analyze_session (path : String) (lines : List (Option Json)) : SessionStats :=
  let p := foldRecords pass1Obj (initStats path, []) lines
  foldRecords (pass2Obj p.2) p.1 lines

/-! ## Concrete records used by the scenario claims -/

/-- A `tool_use` content block with a `name` and an `id` field. -/
def mkToolUseBlock (name idv : Json) : Json :=
  .obj (.cons "type" (.str "tool_use") (.cons "name" name (.cons "id" idv .nil)))

/-- A `tool_use` content block carrying no `id` field. -/
def mkToolUseBlockNoId (name : Json) : Json :=
  .obj (.cons "type" (.str "tool_use") (.cons "name" name .nil))

/-- An assistant record whose message holds exactly one `tool_use` block. -/
def mkAssistantUse (name idv : Json) : Json :=
  .obj (.cons "type" (.str "assistant") (.cons "message" (.obj
    (.cons "content" (.arr (.cons (mkToolUseBlock name idv) .nil)) .nil)) .nil))

/-- A user record whose message holds exactly one `tool_result` block. -/
def mkUserResult (tid content : Json) : Json :=
  .obj (.cons "type" (.str "user") (.cons "message" (.obj
    (.cons "content" (.arr (.cons (.obj (.cons "type" (.str "tool_result")
      (.cons "tool_use_id" tid (.cons "content" content .nil)))) .nil)) .nil)) .nil))

/-- The assistant record of the C2 scenario: one `tool_use` block
(name "Read", id "t1") and usage `{input_tokens: 100, output_tokens: 50}`. -/
def c2AssistantLine : Json :=
  .obj (.cons "type" (.str "assistant") (.cons "message" (.obj
    (.cons "usage" (.obj (.cons "input_tokens" (.num 100)
      (.cons "output_tokens" (.num 50) .nil)))
    (.cons "content" (.arr (.cons (mkToolUseBlock (.str "Read") (.str "t1")) .nil))
      .nil))) .nil))

/-- The user record of the C2 scenario: one `tool_result` block
(tool_use_id "t1", content "hello"). -/
def c2UserLine : Json :=
  mkUserResult (.str "t1") (.str "hello")

/-- C2: on the two-line file of the scenario — an assistant record with one
`tool_use` block (name "Read", id "t1") and usage
`{input_tokens: 100, output_tokens: 50}`, then a user record with one
`tool_result` block (tool_use_id "t1", content "hello") — `analyze_session`
returns `tool_calls = {"Read": 1}`, `tokens.input = 100`,
`tokens.output = 50`, and
`tool_result_sizes = {"Read": {count: 1, total_chars: 5}}`. -/
theorem c2_scenario_two_line_file :
    (analyze_session "session.jsonl" [some c2AssistantLine, some c2UserLine]).tool_calls
      = [(Json.str "Read", 1)] ∧
    (analyze_session "session.jsonl" [some c2AssistantLine, some c2UserLine]).tokens.input
      = 100 ∧
    (analyze_session "session.jsonl" [some c2AssistantLine, some c2UserLine]).tokens.output
      = 50 ∧
    (analyze_session "session.jsonl" [some c2AssistantLine, some c2UserLine]).tool_result_sizes
      = [(Json.str "Read", ⟨1, 5⟩)] := by
  decide

/-! ## C3: undecodable lines never affect the result -/

theorem foldRecords_filter {α : Type} (g : α → Json → α) (init : α)
    (lines : List (Option Json)) :
    foldRecords g init (lines.filter fun l => l.isSome) = foldRecords g init lines := by
  induction lines generalizing init with
  | nil => rfl
  | cons hd tl ih =>
      cases hd with
      | none => simpa [foldRecords, List.filter] using ih init
      | some obj => simpa [foldRecords, List.filter] using ih (g init obj)

/-- C3: `analyze_session` never raises on undecodable lines — in the
embedding it is a total function, and both passes skip them — and its
result on any file equals its result on the same file with every
undecodable line removed. -/
theorem c3_malformed_lines_discarded (path : String) (lines : List (Option Json)) :
    analyze_session path (lines.filter fun l => l.isSome) = analyze_session path lines := by
  unfold analyze_session
  rw [foldRecords_filter, foldRecords_filter]

/-! ## Frame lemmas: which pass touches which field -/

theorem foldl_proj_eq {α β γ : Type} (f : β → α → β) (proj : β → γ)
    (h : ∀ b a, proj (f b a) = proj b) (l : List α) (b : β) :
    proj (l.foldl f b) = proj b := by
  induction l generalizing b with
  | nil => rfl
  | cons hd tl ih => rw [List.foldl_cons, ih, h]

theorem foldRecords_proj_eq {α γ : Type} (g : α → Json → α) (proj : α → γ)
    (h : ∀ a obj, proj (g a obj) = proj a)
    (lines : List (Option Json)) (init : α) :
    proj (foldRecords g init lines) = proj init := by
  induction lines generalizing init with
  | nil => rfl
  | cons hd tl ih =>
      cases hd with
      | none => exact ih init
      | some obj => rw [foldRecords, List.foldl_cons] ; exact (ih (g init obj)).trans (h init obj)

theorem foldRecords_inv {α : Type} (g : α → Json → α) (P : α → Prop)
    (hg : ∀ a obj, P a → P (g a obj))
    (lines : List (Option Json)) (init : α) (h0 : P init) :
    P (foldRecords g init lines) := by
  induction lines generalizing init with
  | nil => exact h0
  | cons hd tl ih =>
      cases hd with
      | none => exact ih init h0
      | some obj => exact ih (g init obj) (hg init obj h0)

theorem sidStep_keeps (st : SessionStats) (obj : Json) :
    (sidStep st obj).file = st.file ∧
    (sidStep st obj).messages = st.messages ∧
    (sidStep st obj).tool_calls = st.tool_calls ∧
    (sidStep st obj).tool_result_sizes = st.tool_result_sizes ∧
    (sidStep st obj).tokens = st.tokens ∧
    (sidStep st obj).models = st.models ∧
    (sidStep st obj).timestamps_first = st.timestamps_first ∧
    (sidStep st obj).timestamps_last = st.timestamps_last := by
  unfold sidStep ; split <;> exact ⟨rfl, rfl, rfl, rfl, rfl, rfl, rfl, rfl⟩

theorem tsStep_keeps (st : SessionStats) (obj : Json) :
    (tsStep st obj).session_id = st.session_id ∧
    (tsStep st obj).file = st.file ∧
    (tsStep st obj).messages = st.messages ∧
    (tsStep st obj).tool_calls = st.tool_calls ∧
    (tsStep st obj).tool_result_sizes = st.tool_result_sizes ∧
    (tsStep st obj).tokens = st.tokens ∧
    (tsStep st obj).models = st.models := by
  unfold tsStep ; split <;> exact ⟨rfl, rfl, rfl, rfl, rfl, rfl, rfl⟩

theorem typeStep_keeps (st : SessionStats) (obj : Json) :
    (typeStep st obj).session_id = st.session_id ∧
    (typeStep st obj).file = st.file ∧
    (typeStep st obj).tool_calls = st.tool_calls ∧
    (typeStep st obj).tool_result_sizes = st.tool_result_sizes ∧
    (typeStep st obj).tokens = st.tokens ∧
    (typeStep st obj).models = st.models ∧
    (typeStep st obj).timestamps_first = st.timestamps_first ∧
    (typeStep st obj).timestamps_last = st.timestamps_last := by
  unfold typeStep ; split
  · exact ⟨rfl, rfl, rfl, rfl, rfl, rfl, rfl, rfl⟩
  · split
    · exact ⟨rfl, rfl, rfl, rfl, rfl, rfl, rfl, rfl⟩
    · split <;> exact ⟨rfl, rfl, rfl, rfl, rfl, rfl, rfl, rfl⟩

theorem usageStep_keeps (st : SessionStats) (msg : Json) :
    (usageStep st msg).session_id = st.session_id ∧
    (usageStep st msg).file = st.file ∧
    (usageStep st msg).messages = st.messages ∧
    (usageStep st msg).tool_calls = st.tool_calls ∧
    (usageStep st msg).tool_result_sizes = st.tool_result_sizes ∧
    (usageStep st msg).timestamps_first = st.timestamps_first ∧
    (usageStep st msg).timestamps_last = st.timestamps_last :=
  ⟨rfl, rfl, rfl, rfl, rfl, rfl, rfl⟩

theorem useBlockStep_keeps (p : SessionStats × List (Json × Json)) (block : Json) :
    (useBlockStep p block).1.session_id = p.1.session_id ∧
    (useBlockStep p block).1.file = p.1.file ∧
    (useBlockStep p block).1.messages = p.1.messages ∧
    (useBlockStep p block).1.tool_result_sizes = p.1.tool_result_sizes ∧
    (useBlockStep p block).1.tokens = p.1.tokens ∧
    (useBlockStep p block).1.models = p.1.models ∧
    (useBlockStep p block).1.timestamps_first = p.1.timestamps_first ∧
    (useBlockStep p block).1.timestamps_last = p.1.timestamps_last := by
  simp only [useBlockStep]
  rcases block with _ | b | n | s | a | o <;>
    try exact ⟨rfl, rfl, rfl, rfl, rfl, rfl, rfl, rfl⟩
  dsimp only
  split
  · split <;> exact ⟨rfl, rfl, rfl, rfl, rfl, rfl, rfl, rfl⟩
  · exact ⟨rfl, rfl, rfl, rfl, rfl, rfl, rfl, rfl⟩

theorem resultBlockStep_keeps (idx : List (Json × Json)) (st : SessionStats) (block : Json) :
    (resultBlockStep idx st block).session_id = st.session_id ∧
    (resultBlockStep idx st block).file = st.file ∧
    (resultBlockStep idx st block).messages = st.messages ∧
    (resultBlockStep idx st block).tool_calls = st.tool_calls ∧
    (resultBlockStep idx st block).tokens = st.tokens ∧
    (resultBlockStep idx st block).models = st.models ∧
    (resultBlockStep idx st block).timestamps_first = st.timestamps_first ∧
    (resultBlockStep idx st block).timestamps_last = st.timestamps_last := by
  unfold resultBlockStep
  rcases block with _ | b | n | s | a | o <;> repeat' split
  all_goals refine ⟨?_, ?_, ?_, ?_, ?_, ?_, ?_, ?_⟩ <;> rfl

theorem pass2Obj_keeps (idx : List (Json × Json)) (st : SessionStats) (obj : Json) :
    (pass2Obj idx st obj).session_id = st.session_id ∧
    (pass2Obj idx st obj).file = st.file ∧
    (pass2Obj idx st obj).messages = st.messages ∧
    (pass2Obj idx st obj).tool_calls = st.tool_calls ∧
    (pass2Obj idx st obj).tokens = st.tokens ∧
    (pass2Obj idx st obj).models = st.models ∧
    (pass2Obj idx st obj).timestamps_first = st.timestamps_first ∧
    (pass2Obj idx st obj).timestamps_last = st.timestamps_last := by
  unfold pass2Obj
  split
  · split
    · refine ⟨?_, ?_, ?_, ?_, ?_, ?_, ?_, ?_⟩ <;>
        exact foldl_proj_eq (resultBlockStep idx) _
          (fun b a => by
            have h := resultBlockStep_keeps idx b a
            tauto) _ _
    · exact ⟨rfl, rfl, rfl, rfl, rfl, rfl, rfl, rfl⟩
  · exact ⟨rfl, rfl, rfl, rfl, rfl, rfl, rfl, rfl⟩

/-! ## C4: session token totals equal the per-model sums -/

/-- Sum of `models[m]['input']` over all model entries. -/
def modelsInputSum : List (Json × ModelEntry) → Int
  | [] => 0
  | (_, e) :: rest => e.input + modelsInputSum rest

/-- Sum of `models[m]['output']` over all model entries. -/
def modelsOutputSum : List (Json × ModelEntry) → Int
  | [] => 0
  | (_, e) :: rest => e.output + modelsOutputSum rest

theorem bumpModel_inputSum (ms : List (Json × ModelEntry)) (k : Json) (din dout : Int) :
    modelsInputSum (bumpModel ms k din dout) = modelsInputSum ms + din := by
  induction ms with
  | nil => simp [bumpModel, modelsInputSum]
  | cons hd tl ih =>
      rcases hd with ⟨k', e⟩
      by_cases hk : k' = k
      · simp only [bumpModel, hk, if_pos rfl, modelsInputSum]
        ring
      · simp only [bumpModel, if_neg hk, modelsInputSum, ih]
        ring

theorem bumpModel_outputSum (ms : List (Json × ModelEntry)) (k : Json) (din dout : Int) :
    modelsOutputSum (bumpModel ms k din dout) = modelsOutputSum ms + dout := by
  induction ms with
  | nil => simp [bumpModel, modelsOutputSum]
  | cons hd tl ih =>
      rcases hd with ⟨k', e⟩
      by_cases hk : k' = k
      · simp only [bumpModel, hk, if_pos rfl, modelsOutputSum]
        ring
      · simp only [bumpModel, if_neg hk, modelsOutputSum, ih]
        ring

/-- The invariant of the claim: session token totals match per-model sums. -/
def TokensMatch (st : SessionStats) : Prop :=
  st.tokens.input = modelsInputSum st.models ∧
  st.tokens.output = modelsOutputSum st.models

theorem usageStep_tokensMatch (st : SessionStats) (msg : Json) (h : TokensMatch st) :
    TokensMatch (usageStep st msg) := by
  rcases h with ⟨hin, hout⟩
  constructor
  · show st.tokens.input + _ = modelsInputSum (bumpModel st.models _ _ _)
    rw [bumpModel_inputSum, hin]
  · show st.tokens.output + _ = modelsOutputSum (bumpModel st.models _ _ _)
    rw [bumpModel_outputSum, hout]

theorem useFold_tokens (blocks : List Json) (p : SessionStats × List (Json × Json)) :
    ((blocks.foldl useBlockStep p).1).tokens = p.1.tokens :=
  foldl_proj_eq useBlockStep (fun q => q.1.tokens)
    (fun b a => (useBlockStep_keeps b a).2.2.2.2.1) blocks p

theorem useFold_models (blocks : List Json) (p : SessionStats × List (Json × Json)) :
    ((blocks.foldl useBlockStep p).1).models = p.1.models :=
  foldl_proj_eq useBlockStep (fun q => q.1.models)
    (fun b a => (useBlockStep_keeps b a).2.2.2.2.2.1) blocks p

theorem assistantStep_tokensMatch (p : SessionStats × List (Json × Json)) (obj : Json)
    (h : TokensMatch p.1) : TokensMatch (assistantStep p obj).1 := by
  unfold assistantStep
  split
  · have ht := useFold_tokens (contentBlocks ((obj.get? "message").getD .null))
      (usageStep p.1 ((obj.get? "message").getD .null), p.2)
    have hm := useFold_models (contentBlocks ((obj.get? "message").getD .null))
      (usageStep p.1 ((obj.get? "message").getD .null), p.2)
    have := usageStep_tokensMatch p.1 ((obj.get? "message").getD .null) h
    exact ⟨by rw [ht] ; rw [hm] ; exact this.1, by rw [ht] ; rw [hm] ; exact this.2⟩
  · exact h

theorem pass1Obj_tokensMatch (p : SessionStats × List (Json × Json)) (obj : Json)
    (h : TokensMatch p.1) : TokensMatch (pass1Obj p obj).1 := by
  unfold pass1Obj
  apply assistantStep_tokensMatch
  show TokensMatch (typeStep (tsStep (sidStep p.1 obj) obj) obj)
  have k1 := sidStep_keeps p.1 obj
  have k2 := tsStep_keeps (sidStep p.1 obj) obj
  have k3 := typeStep_keeps (tsStep (sidStep p.1 obj) obj) obj
  unfold TokensMatch at h ⊢
  rw [k3.2.2.2.2.1, k3.2.2.2.2.2.1, k2.2.2.2.2.2.1, k2.2.2.2.2.2.2,
      k1.2.2.2.2.1, k1.2.2.2.2.2.1]
  exact h

/-- C4: for every input file, the session-level token totals equal the sums
over all models of the per-model totals — `tokens.input` is the sum of
`models[m].input` and `tokens.output` the sum of `models[m].output`. -/
theorem c4_session_tokens_equal_per_model_sums (path : String) (lines : List (Option Json)) :
    (analyze_session path lines).tokens.input
      = modelsInputSum (analyze_session path lines).models ∧
    (analyze_session path lines).tokens.output
      = modelsOutputSum (analyze_session path lines).models := by
  show TokensMatch (analyze_session path lines)
  unfold analyze_session
  have h2t := foldRecords_proj_eq
    (pass2Obj (foldRecords pass1Obj (initStats path, []) lines).2)
    (fun st => st.tokens)
    (fun a obj => (pass2Obj_keeps _ a obj).2.2.2.2.1) lines
    (foldRecords pass1Obj (initStats path, []) lines).1
  have h2m := foldRecords_proj_eq
    (pass2Obj (foldRecords pass1Obj (initStats path, []) lines).2)
    (fun st => st.models)
    (fun a obj => (pass2Obj_keeps _ a obj).2.2.2.2.2.1) lines
    (foldRecords pass1Obj (initStats path, []) lines).1
  have h1 : TokensMatch (foldRecords pass1Obj (initStats path, []) lines).1 :=
    foldRecords_inv pass1Obj (fun q => TokensMatch q.1)
      (fun a obj ha => pass1Obj_tokensMatch a obj ha) lines (initStats path, [])
      ⟨rfl, rfl⟩
  show TokensMatch (foldRecords (pass2Obj (foldRecords pass1Obj (initStats path, []) lines).2)
    (foldRecords pass1Obj (initStats path, []) lines).1 lines)
  unfold TokensMatch
  rw [show (foldRecords (pass2Obj (foldRecords pass1Obj (initStats path, []) lines).2)
        (foldRecords pass1Obj (initStats path, []) lines).1 lines).tokens = _ from h2t,
      show (foldRecords (pass2Obj (foldRecords pass1Obj (initStats path, []) lines).2)
        (foldRecords pass1Obj (initStats path, []) lines).1 lines).models = _ from h2m]
  exact h1

/-! ## C6: session-id adoption -/

theorem foldRecords_cons_none {α : Type} (g : α → Json → α) (init : α)
    (tl : List (Option Json)) :
    foldRecords g init (none :: tl) = foldRecords g init tl := rfl

theorem foldRecords_cons_some {α : Type} (g : α → Json → α) (init : α)
    (obj : Json) (tl : List (Option Json)) :
    foldRecords g init (some obj :: tl) = foldRecords g (g init obj) tl := rfl

theorem sidStep_sid_spec (st : SessionStats) (obj : Json) :
    (sidStep st obj).session_id =
      if obj.hasKey "sessionId" && !optTruthy st.session_id
      then obj.get? "sessionId" else st.session_id := by
  unfold sidStep ; split <;> rfl

theorem assistantStep_keeps (p : SessionStats × List (Json × Json)) (obj : Json) :
    (assistantStep p obj).1.session_id = p.1.session_id ∧
    (assistantStep p obj).1.file = p.1.file ∧
    (assistantStep p obj).1.messages = p.1.messages ∧
    (assistantStep p obj).1.tool_result_sizes = p.1.tool_result_sizes ∧
    (assistantStep p obj).1.timestamps_first = p.1.timestamps_first ∧
    (assistantStep p obj).1.timestamps_last = p.1.timestamps_last := by
  unfold assistantStep
  split
  · refine ⟨?_, ?_, ?_, ?_, ?_, ?_⟩
    · exact (foldl_proj_eq useBlockStep (fun q => q.1.session_id)
        (fun b a => (useBlockStep_keeps b a).1) _ _).trans (usageStep_keeps p.1 _).1
    · exact (foldl_proj_eq useBlockStep (fun q => q.1.file)
        (fun b a => (useBlockStep_keeps b a).2.1) _ _).trans (usageStep_keeps p.1 _).2.1
    · exact (foldl_proj_eq useBlockStep (fun q => q.1.messages)
        (fun b a => (useBlockStep_keeps b a).2.2.1) _ _).trans (usageStep_keeps p.1 _).2.2.1
    · exact (foldl_proj_eq useBlockStep (fun q => q.1.tool_result_sizes)
        (fun b a => (useBlockStep_keeps b a).2.2.2.1) _ _).trans
        (usageStep_keeps p.1 _).2.2.2.2.1
    · exact (foldl_proj_eq useBlockStep (fun q => q.1.timestamps_first)
        (fun b a => (useBlockStep_keeps b a).2.2.2.2.2.2.1) _ _).trans
        (usageStep_keeps p.1 _).2.2.2.2.2.1
    · exact (foldl_proj_eq useBlockStep (fun q => q.1.timestamps_last)
        (fun b a => (useBlockStep_keeps b a).2.2.2.2.2.2.2) _ _).trans
        (usageStep_keeps p.1 _).2.2.2.2.2.2
  · exact ⟨rfl, rfl, rfl, rfl, rfl, rfl⟩

theorem pass1Obj_session_id (p : SessionStats × List (Json × Json)) (obj : Json) :
    (pass1Obj p obj).1.session_id = (sidStep p.1 obj).session_id := by
  unfold pass1Obj
  rw [(assistantStep_keeps _ obj).1]
  exact ((typeStep_keeps _ obj).1).trans ((tsStep_keeps _ obj).1)

/-- The truthy `sessionId` values of the decoded records, in file order. -/
def truthySids (lines : List (Option Json)) : List Json :=
  lines.filterMap fun l =>
    match l with
    | some obj =>
        match obj.get? "sessionId" with
        | some v => if v.truthy then some v else none
        | none => none
    | none => none

theorem pass1Fold_sid_truthy (lines : List (Option Json))
    (p : SessionStats × List (Json × Json)) (h : optTruthy p.1.session_id = true) :
    (foldRecords pass1Obj p lines).1.session_id = p.1.session_id := by
  induction lines generalizing p with
  | nil => rfl
  | cons hd tl ih =>
      cases hd with
      | none => exact ih p h
      | some obj =>
          have hs : (pass1Obj p obj).1.session_id = p.1.session_id := by
            rw [pass1Obj_session_id, sidStep_sid_spec, h]
            simp
          rw [foldRecords_cons_some, ih (pass1Obj p obj) (by rw [hs] ; exact h), hs]

theorem pass1Fold_sid_first_truthy (lines : List (Option Json)) :
    ∀ (p : SessionStats × List (Json × Json)) (v : Json) (rest : List Json),
      optTruthy p.1.session_id = false → truthySids lines = v :: rest →
      (foldRecords pass1Obj p lines).1.session_id = some v := by
  induction lines with
  | nil => intro p v rest _ ht ; simp [truthySids] at ht
  | cons hd tl ih =>
      intro p v rest h ht
      cases hd with
      | none =>
          rw [foldRecords_cons_none]
          exact ih p v rest h (by simpa [truthySids, List.filterMap_cons] using ht)
      | some obj =>
          rw [foldRecords_cons_some]
          rcases hv : obj.get? "sessionId" with _ | v'
          · have hs : (pass1Obj p obj).1.session_id = p.1.session_id := by
              rw [pass1Obj_session_id, sidStep_sid_spec]
              simp [Json.hasKey, hv]
            have ht' : truthySids tl = v :: rest := by
              rw [truthySids, List.filterMap_cons] at ht
              simpa [hv, truthySids] using ht
            exact ih (pass1Obj p obj) v rest (by rw [hs] ; exact h) ht'
          · have hs : (pass1Obj p obj).1.session_id = some v' := by
              rw [pass1Obj_session_id, sidStep_sid_spec]
              simp [Json.hasKey, hv, h]
            by_cases htv : v'.truthy
            · have ht' : v' :: truthySids tl = v :: rest := by
                rw [truthySids, List.filterMap_cons] at ht
                simpa [hv, htv, truthySids] using ht
              have hvv : v' = v := (List.cons.injEq _ _ _ _ ▸ ht').1
              rw [pass1Fold_sid_truthy tl (pass1Obj p obj)
                    (by rw [hs] ; simpa [optTruthy] using htv),
                  hs, hvv]
            · have ht' : truthySids tl = v :: rest := by
                rw [truthySids, List.filterMap_cons] at ht
                simpa [hv, htv, truthySids] using ht
              exact ih (pass1Obj p obj) v rest
                (by rw [hs] ; simpa [optTruthy] using htv) ht'

/-- C6 counterexample: the first record carrying a `sessionId` field holds
the empty string.  The claim predicts the recorded session id is `""` and is
never replaced; the code's `not stats['session_id']` truthiness guard lets
the later record's `"s2"` overwrite it. -/
def c6File : List (Option Json) :=
  [some (.obj (.cons "sessionId" (.str "") .nil)),
   some (.obj (.cons "sessionId" (.str "s2") .nil))]

theorem c6_counterexample_falsy_first_sid_replaced :
    (analyze_session "f" c6File).session_id = some (Json.str "s2") ∧
    some (Json.str "s2") ≠ some (Json.str "") := by
  decide

/-- C6 amended: the recorded session id is the first *truthy* `sessionId`
value in file order, and once a truthy value is adopted it is never
replaced; a falsy `sessionId` (such as `""`) may be overwritten by a later
record's value. -/
theorem c6_amended_first_truthy_sid_wins (path : String) (lines : List (Option Json))
    (v : Json) (rest : List Json) (h : truthySids lines = v :: rest) :
    (analyze_session path lines).session_id = some v := by
  unfold analyze_session
  show (foldRecords (pass2Obj (foldRecords pass1Obj (initStats path, []) lines).2)
    (foldRecords pass1Obj (initStats path, []) lines).1 lines).session_id = some v
  rw [foldRecords_proj_eq _ (fun st => st.session_id)
    (fun a obj => (pass2Obj_keeps _ a obj).1) lines _]
  exact pass1Fold_sid_first_truthy lines (initStats path, []) v rest rfl h

theorem c6_amended_witness :
    truthySids c6File = [Json.str "s2"] ∧
    (analyze_session "f" c6File).session_id = some (Json.str "s2") :=
  ⟨by decide, c6_amended_first_truthy_sid_wins "f" c6File (Json.str "s2") [] (by decide)⟩

/-! ## C8: first/last timestamps are min/max, order-independent -/

/-- The timestamp carried by one decoded record, when it is a string. -/
def tsOf (obj : Json) : Option String :=
  match obj.get? "timestamp" with
  | some (.str ts) => some ts
  | _ => none

/-- Apply one record's (possibly absent) timestamp to the running first. -/
def applyFirst (cur : Option String) (t : Option String) : Option String :=
  match t with
  | some ts => updFirst cur ts
  | none => cur

def applyLast (cur : Option String) (t : Option String) : Option String :=
  match t with
  | some ts => updLast cur ts
  | none => cur

/-- The timestamp strings present in a file, in file order. -/
def tsListOf (lines : List (Option Json)) : List String :=
  lines.filterMap fun l =>
    match l with
    | some obj => tsOf obj
    | none => none

/-- The running minimum the first-timestamp tracking computes. -/
def minTs (ts : List String) : Option String := ts.foldl updFirst none

/-- The running maximum the last-timestamp tracking computes. -/
def maxTs (ts : List String) : Option String := ts.foldl updLast none

theorem updFirst_some (f ts : String) : updFirst (some f) ts = some (min ts f) := by
  show (if ts < f then some ts else some f) = some (min ts f)
  by_cases h : ts < f
  · rw [if_pos h, min_eq_left h.le]
  · rw [if_neg h, min_eq_right (le_of_not_lt h)]

theorem updLast_some (l ts : String) : updLast (some l) ts = some (max ts l) := by
  show (if ts > l then some ts else some l) = some (max ts l)
  by_cases h : ts > l
  · rw [if_pos h, max_eq_left h.le]
  · rw [if_neg h, max_eq_right (le_of_not_lt h)]

theorem updFirst_comm (a : Option String) (s t : String) :
    updFirst (updFirst a s) t = updFirst (updFirst a t) s := by
  cases a with
  | none =>
      show updFirst (some s) t = updFirst (some t) s
      rw [updFirst_some, updFirst_some, min_comm]
  | some m =>
      rw [updFirst_some, updFirst_some, updFirst_some, updFirst_some, min_left_comm]

theorem updLast_comm (a : Option String) (s t : String) :
    updLast (updLast a s) t = updLast (updLast a t) s := by
  cases a with
  | none =>
      show updLast (some s) t = updLast (some t) s
      rw [updLast_some, updLast_some, max_comm]
  | some m =>
      rw [updLast_some, updLast_some, updLast_some, updLast_some, max_left_comm]

theorem foldl_perm_of_comm {α β : Type} (f : β → α → β)
    (hc : ∀ (acc : β) (u v : α), f (f acc u) v = f (f acc v) u)
    {l1 l2 : List α} (h : l1.Perm l2) : ∀ acc : β, l1.foldl f acc = l2.foldl f acc := by
  induction h with
  | nil => intro acc ; rfl
  | cons x _ ih => intro acc ; simpa using ih (f acc x)
  | swap x y l => intro acc ; simp [hc]
  | trans _ _ ih1 ih2 => intro acc ; rw [ih1 acc, ih2 acc]

/-- `minTs` computes the lexicographic minimum of the list. -/
theorem foldl_updFirst_some (l : List String) : ∀ a : String,
    l.foldl updFirst (some a) = some (l.foldl min a) := by
  induction l with
  | nil => intro a ; rfl
  | cons hd tl ih =>
      intro a
      simp only [List.foldl_cons, updFirst_some, ih, min_comm hd a]

theorem foldl_min_eq_elim (xs : List String) : ∀ a : String,
    xs.foldl min a = xs.min?.elim a (min a) := by
  induction xs with
  | nil => intro a ; rfl
  | cons x xs ih =>
      intro a
      rw [List.foldl_cons, ih (min a x), List.min?_cons]
      cases h : xs.min? with
      | none => simp [h]
      | some m => simp [h, min_assoc]

theorem minTs_eq_min? (l : List String) : minTs l = l.min? := by
  cases l with
  | nil => rfl
  | cons hd tl =>
      show tl.foldl updFirst (updFirst none hd) = _
      rw [show updFirst none hd = some hd from rfl, foldl_updFirst_some tl hd,
          List.min?_cons, foldl_min_eq_elim tl hd]

theorem foldl_updLast_some (l : List String) : ∀ a : String,
    l.foldl updLast (some a) = some (l.foldl max a) := by
  induction l with
  | nil => intro a ; rfl
  | cons hd tl ih =>
      intro a
      simp only [List.foldl_cons, updLast_some, ih, max_comm hd a]

theorem foldl_max_eq_elim (xs : List String) : ∀ a : String,
    xs.foldl max a = xs.max?.elim a (max a) := by
  induction xs with
  | nil => intro a ; rfl
  | cons x xs ih =>
      intro a
      rw [List.foldl_cons, ih (max a x), List.max?_cons]
      cases h : xs.max? with
      | none => simp [h]
      | some m => simp [h, max_assoc]

theorem maxTs_eq_max? (l : List String) : maxTs l = l.max? := by
  cases l with
  | nil => rfl
  | cons hd tl =>
      show tl.foldl updLast (updLast none hd) = _
      rw [show updLast none hd = some hd from rfl, foldl_updLast_some tl hd,
          List.max?_cons, foldl_max_eq_elim tl hd]

theorem tsStep_first_spec (st : SessionStats) (obj : Json) :
    (tsStep st obj).timestamps_first = applyFirst st.timestamps_first (tsOf obj) := by
  unfold tsStep applyFirst tsOf
  split <;> rfl

theorem tsStep_last_spec (st : SessionStats) (obj : Json) :
    (tsStep st obj).timestamps_last = applyLast st.timestamps_last (tsOf obj) := by
  unfold tsStep applyLast tsOf
  split <;> rfl

theorem pass1Obj_ts_first (p : SessionStats × List (Json × Json)) (obj : Json) :
    (pass1Obj p obj).1.timestamps_first = applyFirst p.1.timestamps_first (tsOf obj) := by
  unfold pass1Obj
  rw [(assistantStep_keeps _ obj).2.2.2.2.1, (typeStep_keeps _ obj).2.2.2.2.2.2.1,
      tsStep_first_spec, (sidStep_keeps p.1 obj).2.2.2.2.2.2.1]

theorem pass1Obj_ts_last (p : SessionStats × List (Json × Json)) (obj : Json) :
    (pass1Obj p obj).1.timestamps_last = applyLast p.1.timestamps_last (tsOf obj) := by
  unfold pass1Obj
  rw [(assistantStep_keeps _ obj).2.2.2.2.2, (typeStep_keeps _ obj).2.2.2.2.2.2.2,
      tsStep_last_spec, (sidStep_keeps p.1 obj).2.2.2.2.2.2.2]

theorem pass1Fold_ts_first (lines : List (Option Json)) :
    ∀ p : SessionStats × List (Json × Json),
      (foldRecords pass1Obj p lines).1.timestamps_first
        = (tsListOf lines).foldl updFirst p.1.timestamps_first := by
  induction lines with
  | nil => intro p ; rfl
  | cons hd tl ih =>
      intro p
      cases hd with
      | none =>
          rw [foldRecords_cons_none]
          simpa [tsListOf, List.filterMap_cons] using ih p
      | some obj =>
          rw [foldRecords_cons_some, ih (pass1Obj p obj), pass1Obj_ts_first]
          rcases h : tsOf obj with _ | ts <;>
            simp [tsListOf, List.filterMap_cons, h, applyFirst]

theorem pass1Fold_ts_last (lines : List (Option Json)) :
    ∀ p : SessionStats × List (Json × Json),
      (foldRecords pass1Obj p lines).1.timestamps_last
        = (tsListOf lines).foldl updLast p.1.timestamps_last := by
  induction lines with
  | nil => intro p ; rfl
  | cons hd tl ih =>
      intro p
      cases hd with
      | none =>
          rw [foldRecords_cons_none]
          simpa [tsListOf, List.filterMap_cons] using ih p
      | some obj =>
          rw [foldRecords_cons_some, ih (pass1Obj p obj), pass1Obj_ts_last]
          rcases h : tsOf obj with _ | ts <;>
            simp [tsListOf, List.filterMap_cons, h, applyLast]

theorem analyze_ts_first (path : String) (lines : List (Option Json)) :
    (analyze_session path lines).timestamps_first = minTs (tsListOf lines) := by
  unfold analyze_session
  show (foldRecords (pass2Obj (foldRecords pass1Obj (initStats path, []) lines).2)
    (foldRecords pass1Obj (initStats path, []) lines).1 lines).timestamps_first = _
  rw [foldRecords_proj_eq _ (fun st => st.timestamps_first)
    (fun a obj => (pass2Obj_keeps _ a obj).2.2.2.2.2.2.1) lines _]
  exact pass1Fold_ts_first lines (initStats path, [])

theorem analyze_ts_last (path : String) (lines : List (Option Json)) :
    (analyze_session path lines).timestamps_last = maxTs (tsListOf lines) := by
  unfold analyze_session
  show (foldRecords (pass2Obj (foldRecords pass1Obj (initStats path, []) lines).2)
    (foldRecords pass1Obj (initStats path, []) lines).1 lines).timestamps_last = _
  rw [foldRecords_proj_eq _ (fun st => st.timestamps_last)
    (fun a obj => (pass2Obj_keeps _ a obj).2.2.2.2.2.2.2) lines _]
  exact pass1Fold_ts_last lines (initStats path, [])

/-- C8: the first/last timestamp fields are order-independent — the first
timestamp is the lexicographic minimum and the last the lexicographic
maximum of all timestamp strings present (`minTs`/`maxTs` equal `List.min?`
and `List.max?` by `minTs_eq_min?`/`maxTs_eq_max?`), so permuting the
decoded records leaves both fields unchanged. -/
theorem c8_timestamps_minmax_order_independent (path : String)
    (l1 l2 : List (Option Json)) (hp : l1.Perm l2) :
    ((analyze_session path l1).timestamps_first
        = (analyze_session path l2).timestamps_first ∧
     (analyze_session path l1).timestamps_last
        = (analyze_session path l2).timestamps_last) ∧
    (analyze_session path l1).timestamps_first = minTs (tsListOf l1) ∧
    (analyze_session path l1).timestamps_last = maxTs (tsListOf l1) := by
  have hperm : (tsListOf l1).Perm (tsListOf l2) := hp.filterMap _
  refine ⟨⟨?_, ?_⟩, analyze_ts_first path l1, analyze_ts_last path l1⟩
  · rw [analyze_ts_first, analyze_ts_first]
    exact foldl_perm_of_comm updFirst updFirst_comm hperm none
  · rw [analyze_ts_last, analyze_ts_last]
    exact foldl_perm_of_comm updLast updLast_comm hperm none

/-- Two concrete single-timestamp records, in the two opposite orders. -/
def c8FileA : List (Option Json) :=
  [some (.obj (.cons "timestamp" (.str "2026-01-02T00:00:00Z") .nil)),
   some (.obj (.cons "timestamp" (.str "2026-01-01T00:00:00Z") .nil))]

def c8FileB : List (Option Json) :=
  [some (.obj (.cons "timestamp" (.str "2026-01-01T00:00:00Z") .nil)),
   some (.obj (.cons "timestamp" (.str "2026-01-02T00:00:00Z") .nil))]

theorem c8_witness :
    c8FileA.Perm c8FileB ∧
    (((analyze_session "f" c8FileA).timestamps_first
        = (analyze_session "f" c8FileB).timestamps_first ∧
      (analyze_session "f" c8FileA).timestamps_last
        = (analyze_session "f" c8FileB).timestamps_last) ∧
     (analyze_session "f" c8FileA).timestamps_first = minTs (tsListOf c8FileA) ∧
     (analyze_session "f" c8FileA).timestamps_last = maxTs (tsListOf c8FileA)) :=
  ⟨List.Perm.swap _ _ _,
   c8_timestamps_minmax_order_independent "f" c8FileA c8FileB (List.Perm.swap _ _ _)⟩

/-! ## C7: pass-1 index recording and tool-call counting -/

/-- An assistant record whose message holds one `tool_use` block with no
`id` field. -/
def mkAssistantUseNoId (name : Json) : Json :=
  .obj (.cons "type" (.str "assistant") (.cons "message" (.obj
    (.cons "content" (.arr (.cons (mkToolUseBlockNoId name) .nil)) .nil)) .nil))

/-- C7 counterexample: a `tool_use` block carrying the invocation id `""`.
The claim predicts the mapping `"" → "Read"` is recorded in the invocation
index; the code's `if tool_id:` truthiness guard records nothing, though the
tool-call counter is still incremented. -/
theorem c7_counterexample_falsy_id_not_indexed :
    toolNamesIndex [some (mkAssistantUse (.str "Read") (.str ""))] = [] ∧
    (foldRecords pass1Obj (initStats "f", [])
      [some (mkAssistantUse (.str "Read") (.str ""))]).1.tool_calls
      = [(Json.str "Read", 1)] := by
  decide

/-- C7 amended: in pass 1, for every `tool_use` content block of an
assistant record, the tool-call counter for the block's tool name is
incremented whether or not the block carries an identifier; the mapping
identifier → tool name is recorded in the invocation index exactly when the
identifier is truthy (a falsy identifier — absent, `null`, `""`, `0`,
`false`, `[]`, `{}` — records nothing). -/
theorem c7_amended_pass1_indexes_truthy_ids (st : SessionStats)
    (idx : List (Json × Json)) (name idv : Json) :
    (pass1Obj (st, idx) (mkAssistantUse name idv)).2
      = (if idv.truthy then idxSet idx idv name else idx) ∧
    (pass1Obj (st, idx) (mkAssistantUse name idv)).1.tool_calls
      = addCount st.tool_calls name 1 ∧
    (pass1Obj (st, idx) (mkAssistantUseNoId name)).2 = idx ∧
    (pass1Obj (st, idx) (mkAssistantUseNoId name)).1.tool_calls
      = addCount st.tool_calls name 1 := by
  refine ⟨?_, ?_, ?_, ?_⟩
  all_goals
    simp [pass1Obj, sidStep, tsStep, typeStep, assistantStep, usageStep,
      useBlockStep, mkAssistantUse, mkAssistantUseNoId, mkToolUseBlock,
      mkToolUseBlockNoId, contentBlocks, Json.get?, JObj.get?, Json.hasKey,
      optTruthy, usageInt, JArr.toList, Json.truthy]
  all_goals split <;> rfl

/-! ## C1: tool-result attribution through the two-pass index

The invocation index that pass 2 consults is characterized semantically:
`fileBinding lines k` is the last id → name assignment performed at key `k`
by pass 1 over the whole file (dict assignment overwrites, so later blocks,
records and file segments win).  `pass1_index_lookup` proves the index the
code builds realizes exactly this lookup, for every file and every key. -/

/-- Right-biased override of optional bindings: the second operand is
consulted only when the first yields nothing (later bindings first). -/
def oor (a b : Option Json) : Option Json :=
  match a with
  | some v => some v
  | none => b

theorem oor_assoc (a b c : Option Json) : oor (oor a b) c = oor a (oor b c) := by
  cases a <;> rfl

theorem oor_none (a : Option Json) : oor a none = a := by
  cases a <;> rfl

/-- The binding a single content block contributes to the invocation index
at key `k`: a `tool_use` block binds its truthy id to its tool name. -/
def blockBinding (block : Json) (k : Json) : Option Json :=
  match block with
  | .obj _ =>
      if block.get? "type" = some (.str "tool_use") then
        let tool_name := (block.get? "name").getD (.str "unknown")
        let tool_id := (block.get? "id").getD .null
        if tool_id.truthy ∧ tool_id = k then some tool_name else none
      else none
  | _ => none

/-- The last binding at key `k` contributed by a block list. -/
def blocksBinding : List Json → Json → Option Json
  | [], _ => none
  | b :: bs, k => oor (blocksBinding bs k) (blockBinding b k)

/-- The binding at key `k` contributed by one decoded record. -/
def recBinding (obj : Json) (k : Json) : Option Json :=
  if obj.get? "type" = some (.str "assistant") && obj.hasKey "message" then
    blocksBinding (contentBlocks ((obj.get? "message").getD .null)) k
  else none

/-- The last binding at key `k` contributed by a whole file, later records
overriding earlier ones. -/
def fileBinding : List (Option Json) → Json → Option Json
  | [], _ => none
  | none :: tl, k => fileBinding tl k
  | some obj :: tl, k => oor (fileBinding tl k) (recBinding obj k)

theorem idxGet_idxSet (idx : List (Json × Json)) (a b k : Json) :
    idxGet (idxSet idx a b) k = if a = k then some b else idxGet idx k := by
  induction idx with
  | nil => by_cases h : a = k <;> simp [idxSet, idxGet, h]
  | cons hd tl ih =>
      rcases hd with ⟨k1, v1⟩
      by_cases h1 : k1 = a
      · subst h1
        by_cases h2 : k1 = k <;> simp [idxSet, idxGet, h2]
      · by_cases h2 : k1 = k
        · subst h2
          have hak : ¬(a = k1) := fun h => h1 h.symm
          simp [idxSet, idxGet, h1, hak]
        · simp [idxSet, idxGet, h1, h2, ih]

theorem useBlock_index_lookup (s : SessionStats) (idx : List (Json × Json)) (b k : Json) :
    idxGet ((useBlockStep (s, idx) b).2) k = oor (blockBinding b k) (idxGet idx k) := by
  unfold useBlockStep blockBinding
  rcases b with _ | bb | n | sb | a | o <;> try rfl
  dsimp only
  split
  · cases hht : (((Json.obj o).get? "id").getD Json.null).truthy
    · simp [hht, oor]
    · by_cases hk : (((Json.obj o).get? "id").getD Json.null) = k
      · simp [hht, hk, idxGet_idxSet, oor]
      · simp [hht, hk, idxGet_idxSet, oor]
  · simp [oor]

theorem useFold_index_lookup (blocks : List Json) :
    ∀ (s : SessionStats) (idx : List (Json × Json)) (k : Json),
      idxGet ((blocks.foldl useBlockStep (s, idx)).2) k
        = oor (blocksBinding blocks k) (idxGet idx k) := by
  induction blocks with
  | nil => intro s idx k ; simp [blocksBinding, oor]
  | cons b bs ih =>
      intro s idx k
      rw [List.foldl_cons]
      calc idxGet ((bs.foldl useBlockStep (useBlockStep (s, idx) b)).2) k
          = oor (blocksBinding bs k) (idxGet ((useBlockStep (s, idx) b).2) k) :=
            ih (useBlockStep (s, idx) b).1 (useBlockStep (s, idx) b).2 k
        _ = oor (blocksBinding bs k) (oor (blockBinding b k) (idxGet idx k)) := by
            rw [useBlock_index_lookup]
        _ = oor (oor (blocksBinding bs k) (blockBinding b k)) (idxGet idx k) :=
            (oor_assoc _ _ _).symm
        _ = oor (blocksBinding (b :: bs) k) (idxGet idx k) := rfl

theorem pass1Obj_index_lookup (st : SessionStats) (idx : List (Json × Json))
    (obj : Json) (k : Json) :
    idxGet ((pass1Obj (st, idx) obj).2) k = oor (recBinding obj k) (idxGet idx k) := by
  unfold pass1Obj assistantStep recBinding
  split
  · exact useFold_index_lookup _ _ _ _
  · simp [oor]

theorem pass1_index_lookup (lines : List (Option Json)) :
    ∀ (st : SessionStats) (idx : List (Json × Json)) (k : Json),
      idxGet ((foldRecords pass1Obj (st, idx) lines).2) k
        = oor (fileBinding lines k) (idxGet idx k) := by
  induction lines with
  | nil => intro st idx k ; simp [foldRecords, fileBinding, oor]
  | cons hd tl ih =>
      intro st idx k
      cases hd with
      | none =>
          rw [foldRecords_cons_none]
          simpa [fileBinding] using ih st idx k
      | some obj =>
          rw [foldRecords_cons_some]
          calc idxGet ((foldRecords pass1Obj (pass1Obj (st, idx) obj) tl).2) k
              = oor (fileBinding tl k) (idxGet ((pass1Obj (st, idx) obj).2) k) :=
                ih (pass1Obj (st, idx) obj).1 (pass1Obj (st, idx) obj).2 k
            _ = oor (fileBinding tl k) (oor (recBinding obj k) (idxGet idx k)) := by
                rw [pass1Obj_index_lookup]
            _ = oor (oor (fileBinding tl k) (recBinding obj k)) (idxGet idx k) :=
                (oor_assoc _ _ _).symm
            _ = oor (fileBinding (some obj :: tl) k) (idxGet idx k) := rfl

/-- The lookup realized by the whole-file invocation index is exactly the
last id → name assignment the file performs at that key. -/
theorem toolNamesIndex_lookup (lines : List (Option Json)) (k : Json) :
    idxGet (toolNamesIndex lines) k = fileBinding lines k := by
  have h := pass1_index_lookup lines (initStats "") [] k
  simpa [toolNamesIndex, oor_none, idxGet] using h

theorem fileBinding_append (pre post : List (Option Json)) (k : Json) :
    fileBinding (pre ++ post) k = oor (fileBinding post k) (fileBinding pre k) := by
  induction pre with
  | nil => simp [fileBinding, oor_none]
  | cons hd tl ih =>
      cases hd with
      | none => simpa [fileBinding] using ih
      | some obj =>
          show oor (fileBinding (tl ++ post) k) (recBinding obj k) = _
          rw [ih, oor_assoc]
          rfl

theorem useBlockStep_idx_indep (s t : SessionStats) (i : List (Json × Json)) (b : Json) :
    (useBlockStep (s, i) b).2 = (useBlockStep (t, i) b).2 := by
  simp only [useBlockStep]
  rcases b with _ | bb | n | sb | a | o <;> try rfl
  dsimp only
  split
  · split <;> rfl
  · rfl

theorem useFold_idx_indep (blocks : List Json) :
    ∀ (s t : SessionStats) (i : List (Json × Json)),
      (blocks.foldl useBlockStep (s, i)).2 = (blocks.foldl useBlockStep (t, i)).2 := by
  induction blocks with
  | nil => intro s t i ; rfl
  | cons b bs ih =>
      intro s t i
      rw [List.foldl_cons, List.foldl_cons]
      have h2 := useBlockStep_idx_indep s t i b
      calc (bs.foldl useBlockStep (useBlockStep (s, i) b)).2
          = (bs.foldl useBlockStep
              ((useBlockStep (t, i) b).1, (useBlockStep (s, i) b).2)).2 :=
            ih (useBlockStep (s, i) b).1 (useBlockStep (t, i) b).1 (useBlockStep (s, i) b).2
        _ = (bs.foldl useBlockStep (useBlockStep (t, i) b)).2 := by rw [h2]

theorem pass1Obj_idx_indep (st st2 : SessionStats) (idx : List (Json × Json)) (obj : Json) :
    (pass1Obj (st, idx) obj).2 = (pass1Obj (st2, idx) obj).2 := by
  unfold pass1Obj assistantStep
  split
  · exact useFold_idx_indep _ _ _ _
  · rfl

/-- The invocation index built by pass 1 depends only on the file, not on
the statistics accumulator (in particular not on the file path). -/
theorem pass1_idx_indep_stats (lines : List (Option Json)) :
    ∀ (st st2 : SessionStats) (idx : List (Json × Json)),
      (foldRecords pass1Obj (st, idx) lines).2 = (foldRecords pass1Obj (st2, idx) lines).2 := by
  induction lines with
  | nil => intro _ _ _ ; rfl
  | cons hd tl ih =>
      intro st st2 idx
      cases hd with
      | none => exact ih st st2 idx
      | some obj =>
          rw [foldRecords_cons_some, foldRecords_cons_some]
          have h2 := pass1Obj_idx_indep st st2 idx obj
          calc (foldRecords pass1Obj (pass1Obj (st, idx) obj) tl).2
              = (foldRecords pass1Obj
                  ((pass1Obj (st2, idx) obj).1, (pass1Obj (st, idx) obj).2) tl).2 :=
                ih (pass1Obj (st, idx) obj).1 (pass1Obj (st2, idx) obj).1
                  (pass1Obj (st, idx) obj).2
            _ = (foldRecords pass1Obj (pass1Obj (st2, idx) obj) tl).2 := by rw [h2]

theorem blockBinding_falsy (b k : Json) (hk : k.truthy = false) :
    blockBinding b k = none := by
  unfold blockBinding
  rcases b with _ | bb | n | sb | a | o <;> try rfl
  dsimp only
  split
  · split
    · rename_i hcond
      have ht := hcond.1
      rw [hcond.2, hk] at ht
      exact absurd ht (by decide)
    · rfl
  · rfl

theorem blocksBinding_falsy (blocks : List Json) (k : Json) (hk : k.truthy = false) :
    blocksBinding blocks k = none := by
  induction blocks with
  | nil => rfl
  | cons b bs ih =>
      show oor (blocksBinding bs k) (blockBinding b k) = none
      rw [ih, blockBinding_falsy b k hk]
      rfl

theorem recBinding_falsy (obj k : Json) (hk : k.truthy = false) :
    recBinding obj k = none := by
  unfold recBinding
  split
  · exact blocksBinding_falsy _ k hk
  · rfl

theorem fileBinding_falsy (lines : List (Option Json)) (k : Json) (hk : k.truthy = false) :
    fileBinding lines k = none := by
  induction lines with
  | nil => rfl
  | cons hd tl ih =>
      cases hd with
      | none => simpa [fileBinding] using ih
      | some obj =>
          show oor (fileBinding tl k) (recBinding obj k) = none
          rw [ih, recBinding_falsy obj k hk]
          rfl

/-- C1: for every input file, tool-result attribution goes through the
invocation index built by pass 1 over the *whole* file before pass 2 runs.
First conjunct: `analyze_session` on any path and line list runs pass 2
with `toolNamesIndex lines`, the full-file index.  Second conjunct: for
every decomposition `pre ++ post`, an id bound by the later segment `post`
resolves in the full-file index to that later `tool_use` block's name — so
a `tool_result` block sitting anywhere in `pre` (earlier in file order than
the `tool_use` that announces its id) is still attributed to that tool
name.  Third/fourth conjuncts: every `tool_result` block accumulates under
the name its `tool_use_id` is bound to in the index, and under "unknown"
when the id is absent from the index, never failing (the model is total).
Fifth conjunct: a falsy identifier (such as `""` or a missing id) is never
bound in the index, so such references fall into the "unknown" case. -/
theorem c1_forward_reference_and_unknown_attribution :
    (∀ (path : String) (lines : List (Option Json)),
        analyze_session path lines
          = foldRecords (pass2Obj (toolNamesIndex lines))
              ((foldRecords pass1Obj (initStats path, []) lines).1) lines) ∧
    (∀ (pre post : List (Option Json)) (tid tname : Json),
        idxGet (toolNamesIndex post) tid = some tname →
        idxGet (toolNamesIndex (pre ++ post)) tid = some tname) ∧
    (∀ (idx : List (Json × Json)) (st : SessionStats) (o : JObj) (tname : Json),
        (Json.obj o).get? "type" = some (Json.str "tool_result") →
        idxGet idx (((Json.obj o).get? "tool_use_id").getD Json.null) = some tname →
        resultBlockStep idx st (Json.obj o)
          = { st with tool_result_sizes := addSize st.tool_result_sizes tname 1 (contentSize (((Json.obj o).get? "content").getD (Json.str ""))) }) ∧
    (∀ (idx : List (Json × Json)) (st : SessionStats) (o : JObj),
        (Json.obj o).get? "type" = some (Json.str "tool_result") →
        idxGet idx (((Json.obj o).get? "tool_use_id").getD Json.null) = none →
        resultBlockStep idx st (Json.obj o)
          = { st with tool_result_sizes := addSize st.tool_result_sizes (Json.str "unknown") 1 (contentSize (((Json.obj o).get? "content").getD (Json.str ""))) }) ∧
    (∀ (lines : List (Option Json)) (k : Json),
        k.truthy = false → idxGet (toolNamesIndex lines) k = none) := by
  refine ⟨?_, ?_, ?_, ?_, ?_⟩
  · intro path lines
    show foldRecords (pass2Obj (foldRecords pass1Obj (initStats path, []) lines).2)
      (foldRecords pass1Obj (initStats path, []) lines).1 lines = _
    rw [show (foldRecords pass1Obj (initStats path, []) lines).2 = toolNamesIndex lines from
      pass1_idx_indep_stats lines (initStats path) (initStats "") []]
  · intro pre post tid tname h
    rw [toolNamesIndex_lookup, fileBinding_append]
    rw [toolNamesIndex_lookup] at h
    rw [h]
    rfl
  · intro idx st o tname h1 h2
    unfold resultBlockStep
    simp [h1, h2]
  · intro idx st o h1 h2
    unfold resultBlockStep
    simp [h1, h2]
  · intro lines k hk
    rw [toolNamesIndex_lookup]
    exact fileBinding_falsy lines k hk

/-- The two concrete file segments of the witness: the `tool_result`
record precedes the `tool_use` record that announces its id. -/
def c1PreFile : List (Option Json) := [some (mkUserResult (.str "t1") (.str "hello"))]

def c1PostFile : List (Option Json) := [some (mkAssistantUse (.str "Read") (.str "t1"))]

theorem c1_witness :
    idxGet (toolNamesIndex c1PostFile) (Json.str "t1") = some (Json.str "Read") ∧
    idxGet (toolNamesIndex (c1PreFile ++ c1PostFile)) (Json.str "t1")
      = some (Json.str "Read") ∧
    (analyze_session "s" (c1PreFile ++ c1PostFile)).tool_result_sizes
      = [(Json.str "Read", ⟨1, 5⟩)] ∧
    (Json.str "").truthy = false ∧
    idxGet (toolNamesIndex [some (mkAssistantUse (.str "Read") (.str ""))])
      (Json.str "") = none :=
  ⟨by decide,
   c1_forward_reference_and_unknown_attribution.2.1 c1PreFile c1PostFile
     (Json.str "t1") (Json.str "Read") (by decide),
   by decide,
   by decide,
   c1_forward_reference_and_unknown_attribution.2.2.2.2
     [some (mkAssistantUse (.str "Read") (.str ""))] (Json.str "") (by decide)⟩

/-! ## Aggregation across sessions (`print_summary` totals) -/

/-- The `totals` dictionary of `print_summary`. -/
structure SummaryTotals where
  messages : MessageCounts
  tokens : TokenTotals
  tool_calls : List (Json × Nat)
  tool_result_sizes : List (Json × SizeEntry)
deriving DecidableEq

def summaryZero : SummaryTotals := ⟨⟨0, 0, 0⟩, ⟨0, 0, 0, 0⟩, [], []⟩

/-- `for tool, count in stats['tool_calls'].items(): totals[...][tool] += count`. -/
def addCounts (acc : List (Json × Nat)) (entries : List (Json × Nat)) : List (Json × Nat) :=
  entries.foldl (fun a p => addCount a p.1 p.2) acc

/-- The two `+=` updates per entry of `tool_result_sizes`. -/
def addSizes (acc : List (Json × SizeEntry)) (entries : List (Json × SizeEntry)) :
    List (Json × SizeEntry) :=
  entries.foldl (fun a p => addSize a p.1 p.2.count p.2.total_chars) acc

/-- Merging one session's statistics into the running totals: the body of
the `for stats in all_stats` loop of `print_summary`. -/
def summaryStep (tot : SummaryTotals) (st : SessionStats) : SummaryTotals :=
  { messages := ⟨tot.messages.user + st.messages.user,
                 tot.messages.assistant + st.messages.assistant,
                 tot.messages.system + st.messages.system⟩
    tokens := ⟨tot.tokens.input + st.tokens.input,
               tot.tokens.output + st.tokens.output,
               tot.tokens.cache_read + st.tokens.cache_read,
               tot.tokens.cache_creation + st.tokens.cache_creation⟩
    tool_calls := addCounts tot.tool_calls st.tool_calls
    tool_result_sizes := addSizes tot.tool_result_sizes st.tool_result_sizes }

/-- The aggregate totals of `print_summary` over a list of sessions. -/
def aggregate_summary (all_stats : List SessionStats) : SummaryTotals :=
  all_stats.foldl summaryStep summaryZero

/-- `totals['tool_calls'].get(t, 0)`. -/
def countOf : List (Json × Nat) → Json → Nat
  | [], _ => 0
  | (k', v) :: rest, k => if k' = k then v else countOf rest k

/-- `totals['tool_result_sizes'].get(t, {}).get('total_chars', 0)`. -/
def charsOf : List (Json × SizeEntry) → Json → Nat
  | [], _ => 0
  | (k', e) :: rest, k => if k' = k then e.total_chars else charsOf rest k

/-- `read_tools = ['Read', 'Glob', 'Grep']`. -/
def readTools : List Json := [.str "Read", .str "Glob", .str "Grep"]

def readSearchCalls (tc : List (Json × Nat)) : Nat :=
  (readTools.map (countOf tc)).sum

def readSearchChars (m : List (Json × SizeEntry)) : Nat :=
  (readTools.map (charsOf m)).sum

/-- `sum(d['total_chars'] for d in totals['tool_result_sizes'].values())`. -/
def totalResultChars (m : List (Json × SizeEntry)) : Nat :=
  (m.map fun p => p.2.total_chars).sum

/-- `part*100//total if total else 0`: every percentage in the report guards
its divisor, defaulting to 0 (Python `//` on non-negative integers is `Nat`
floor division). -/
def pctOfTotal (part total : Nat) : Nat :=
  if total = 0 then 0 else part * 100 / total

/-- `data['total_chars'] // data['count'] if data['count'] else 0`. -/
def avgPerCall (e : SizeEntry) : Nat :=
  if e.count = 0 then 0 else e.total_chars / e.count

/-- C9: aggregating the empty sequence of Session Statistics yields
all-zero totals, and every downstream average or percentage guards a zero
divisor by reporting 0 — for the empty aggregate, and for any size entry
with zero calls or zero total characters — so no division by zero occurs. -/
theorem c9_empty_aggregate_and_zero_divisor_guards :
    aggregate_summary [] = summaryZero ∧
    (∀ part : Nat, pctOfTotal part 0 = 0) ∧
    (∀ t : Nat, avgPerCall ⟨0, t⟩ = 0) ∧
    pctOfTotal (readSearchChars (aggregate_summary []).tool_result_sizes)
      (totalResultChars (aggregate_summary []).tool_result_sizes) = 0 ∧
    (∀ e : SizeEntry, avgPerCall ⟨0, e.total_chars⟩ = 0) := by
  exact ⟨rfl, fun _ => rfl, fun _ => rfl, rfl, fun _ => rfl⟩

/-! ## Snapshot export (`export_snapshot`) -/

/-- The `totals` dictionary of `export_snapshot`: unlike `print_summary`,
its `messages` sub-dictionary is initialized with only the `user` and
`assistant` keys, and the `if k in totals['messages']` guard drops each
session's `system` count. -/
structure ExportTotals where
  msg_user : Nat
  msg_assistant : Nat
  tokens : TokenTotals
  tool_calls : List (Json × Nat)
  tool_result_sizes : List (Json × SizeEntry)
deriving DecidableEq

def exportZero : ExportTotals := ⟨0, 0, ⟨0, 0, 0, 0⟩, [], []⟩

def exportStep (tot : ExportTotals) (st : SessionStats) : ExportTotals :=
  { msg_user := tot.msg_user + st.messages.user
    msg_assistant := tot.msg_assistant + st.messages.assistant
    tokens := ⟨tot.tokens.input + st.tokens.input,
               tot.tokens.output + st.tokens.output,
               tot.tokens.cache_read + st.tokens.cache_read,
               tot.tokens.cache_creation + st.tokens.cache_creation⟩
    tool_calls := addCounts tot.tool_calls st.tool_calls
    tool_result_sizes := addSizes tot.tool_result_sizes st.tool_result_sizes }

def export_totals (all_stats : List SessionStats) : ExportTotals :=
  all_stats.foldl exportStep exportZero

/-- Dictionary keys serialized by `json.dumps`: string keys pass through;
non-string scalar keys are coerced to their JSON literal text.  Containers
are unhashable in Python and can never be dictionary keys. -/
def keyName : Json → String
  | .str s => s
  | j => j.dumps

def countsToObj : List (Json × Nat) → JObj
  | [] => .nil
  | (k, v) :: rest => .cons (keyName k) (.num v) (countsToObj rest)

def sizesToObj : List (Json × SizeEntry) → JObj
  | [] => .nil
  | (k, e) :: rest =>
      .cons (keyName k)
        (.obj (.cons "count" (.num e.count) (.cons "total_chars" (.num e.total_chars) .nil)))
        (sizesToObj rest)

/-- The snapshot record built by `export_snapshot`.  The capture timestamp
`datetime.now(timezone.utc).isoformat()` is the parameter `now`; the `note`
key is appended only for a truthy (non-empty) note. -/
def mkSnapshot (all_stats : List SessionStats) (grafema_mcp : Bool)
    (note : Option String) (now : String) : Json :=
  let totals := export_totals all_stats
  let base : JObj :=
    .cons "timestamp" (.str now)
    (.cons "grafema_mcp_enabled" (.bool grafema_mcp)
    (.cons "sessions_count" (.num all_stats.length)
    (.cons "messages" (.obj (.cons "user" (.num totals.msg_user)
        (.cons "assistant" (.num totals.msg_assistant) .nil)))
    (.cons "tokens" (.obj (.cons "input" (.num totals.tokens.input)
        (.cons "output" (.num totals.tokens.output)
        (.cons "cache_read" (.num totals.tokens.cache_read)
        (.cons "cache_creation" (.num totals.tokens.cache_creation) .nil)))))
    (.cons "tool_calls" (.obj (countsToObj totals.tool_calls))
    (.cons "tool_result_sizes" (.obj (sizesToObj totals.tool_result_sizes))
    (.cons "summary" (.obj (.cons "read_search_calls" (.num (readSearchCalls totals.tool_calls))
        (.cons "read_search_chars" (.num (readSearchChars totals.tool_result_sizes))
        (.cons "total_tool_result_chars" (.num (totalResultChars totals.tool_result_sizes)) .nil))))
    .nil)))))))
  match note with
  | some s => if s ≠ "" then .obj (base.concat (.cons "note" (.str s) .nil)) else .obj base
  | none => .obj base

/-- `export_snapshot`: build the snapshot, then write one serialized line,
appending when `append` is requested and the target exists, truncating
otherwise (`mode = 'a' if append and output_path.exists() else 'w'`).
The file is modelled by its contents `oldContent` and existence flag. -/
def export_snapshot (all_stats : List SessionStats) (out_exists : Bool)
    (oldContent : String) (append : Bool) (grafema_mcp : Bool)
    (note : Option String) (now : String) : String × Json :=
  let snap := mkSnapshot all_stats grafema_mcp note now
  (if append && out_exists then oldContent ++ (snap.dumps ++ "\n")
   else snap.dumps ++ "\n", snap)

/-! ## C10: the snapshot's message totals carry only `user` and `assistant` -/

def sumUser (all : List SessionStats) : Nat :=
  (all.map fun s => s.messages.user).sum

def sumAssistant (all : List SessionStats) : Nat :=
  (all.map fun s => s.messages.assistant).sum

/-- Replace a session's `system` message count by 0, leaving the rest. -/
def zeroSystem (st : SessionStats) : SessionStats :=
  { st with messages := { st.messages with system := 0 } }

theorem export_totals_msg_user (all : List SessionStats) :
    ∀ t : ExportTotals, (all.foldl exportStep t).msg_user = t.msg_user + sumUser all := by
  induction all with
  | nil => intro t ; simp [sumUser]
  | cons hd tl ih =>
      intro t
      rw [List.foldl_cons, ih (exportStep t hd)]
      show t.msg_user + hd.messages.user + sumUser tl = _
      simp [sumUser]
      omega

theorem export_totals_msg_assistant (all : List SessionStats) :
    ∀ t : ExportTotals, (all.foldl exportStep t).msg_assistant = t.msg_assistant + sumAssistant all := by
  induction all with
  | nil => intro t ; simp [sumAssistant]
  | cons hd tl ih =>
      intro t
      rw [List.foldl_cons, ih (exportStep t hd)]
      show t.msg_assistant + hd.messages.assistant + sumAssistant tl = _
      simp [sumAssistant]
      omega

theorem exportStep_zeroSystem (t : ExportTotals) (st : SessionStats) :
    exportStep t (zeroSystem st) = exportStep t st := rfl

theorem export_totals_zeroSystem (all : List SessionStats) :
    ∀ t : ExportTotals, (all.map zeroSystem).foldl exportStep t = all.foldl exportStep t := by
  induction all with
  | nil => intro t ; rfl
  | cons hd tl ih =>
      intro t
      rw [List.map_cons, List.foldl_cons, List.foldl_cons, exportStep_zeroSystem, ih]

/-- C10: the snapshot's `messages` field holds exactly the `user` and
`assistant` totals — it has no `system` key, and per-session `system`
counts never enter the snapshot (zeroing them changes nothing) — even
though each Session Statistics object does count system messages. -/
theorem c10_snapshot_messages_exclude_system (all : List SessionStats)
    (g : Bool) (note : Option String) (now : String) :
    (mkSnapshot all g note now).get? "messages"
      = some (.obj (.cons "user" (.num (sumUser all))
          (.cons "assistant" (.num (sumAssistant all)) .nil))) ∧
    (((mkSnapshot all g note now).get? "messages").getD .null).get? "system" = none ∧
    mkSnapshot (all.map zeroSystem) g note now = mkSnapshot all g note now := by
  have hu : (export_totals all).msg_user = sumUser all := by
    simpa [exportZero] using export_totals_msg_user all exportZero
  have ha : (export_totals all).msg_assistant = sumAssistant all := by
    simpa [exportZero] using export_totals_msg_assistant all exportZero
  have hmsg : (mkSnapshot all g note now).get? "messages"
      = some (.obj (.cons "user" (.num (sumUser all))
          (.cons "assistant" (.num (sumAssistant all)) .nil))) := by
    cases note with
    | none => simp [mkSnapshot, Json.get?, JObj.get?, hu, ha]
    | some s =>
        by_cases hs : s = "" <;>
          simp [mkSnapshot, Json.get?, JObj.get?, JObj.concat, hu, ha, hs]
  refine ⟨hmsg, ?_, ?_⟩
  · rw [hmsg]
    simp [Json.get?, JObj.get?]
  · show mkSnapshot (all.map zeroSystem) g note now = mkSnapshot all g note now
    simp only [mkSnapshot, export_totals, export_totals_zeroSystem, List.length_map]

/-! ## C5: exporting is strictly additive, one line per call -/

/-- Number of newline characters in a string: its line count when every
line is newline-terminated. -/
def nlCount (s : String) : Nat := s.data.count '\n'

theorem nlCount_append (a b : String) : nlCount (a ++ b) = nlCount a + nlCount b := by
  simp [nlCount, String.data_append, List.count_append]

theorem hexDigit_ne_nl (n : Nat) : hexDigit n ≠ '\n' := by
  by_cases h : n < 16
  · interval_cases n <;> decide
  · unfold hexDigit
    have hlen : hexDigitChars.length ≤ n := by
      have h16 : hexDigitChars.length = 16 := by decide
      omega
    rw [List.getD_eq_getElem?_getD, List.getElem?_eq_none hlen]
    decide

theorem nlCount_hex4 (n : Nat) : nlCount (hex4 n) = 0 := by
  show List.count '\n' [hexDigit (n / 4096 % 16), hexDigit (n / 256 % 16),
    hexDigit (n / 16 % 16), hexDigit (n % 16)] = 0
  simp [List.count_cons, hexDigit_ne_nl]

theorem nlCount_escChar (c : Char) : nlCount (escChar c) = 0 := by
  unfold escChar
  repeat' split
  all_goals try decide
  all_goals try (simp [nlCount_append, nlCount_hex4] ; decide)
  all_goals
    rename_i hq hb hbs ht hn hf hr _
    show List.count '\n' [c] = 0
    simp [List.count_cons, hn]

theorem nlCount_escList (cs : List Char) : nlCount (escList cs) = 0 := by
  induction cs with
  | nil => decide
  | cons c rest ih =>
      show nlCount (escChar c ++ escList rest) = 0
      rw [nlCount_append, nlCount_escChar, ih]

theorem nlCount_escString (s : String) : nlCount (escString s) = 0 := by
  show nlCount ("\"" ++ escList s.data ++ "\"") = 0
  rw [nlCount_append, nlCount_append, nlCount_escList]
  decide

theorem nl_not_mem_natDigits (fuel : Nat) : ∀ n : Nat, '\n' ∉ natDigits fuel n := by
  induction fuel with
  | zero => intro n ; simp [natDigits]
  | succ f ih =>
      intro n
      unfold natDigits
      split
      · simp
        exact (hexDigit_ne_nl n).symm
      · simp [List.mem_append]
        exact ⟨fun h => absurd h (ih (n / 10)), fun h => absurd h.symm (hexDigit_ne_nl (n % 10))⟩

theorem nlCount_mk_natDigits (fuel n : Nat) : nlCount (String.mk (natDigits fuel n)) = 0 := by
  show List.count '\n' (natDigits fuel n) = 0
  exact List.count_eq_zero.mpr (nl_not_mem_natDigits fuel n)

theorem nlCount_intRepr (i : Int) : nlCount (intRepr i) = 0 := by
  cases i with
  | ofNat n => exact nlCount_mk_natDigits (n + 1) n
  | negSucc m =>
      show nlCount ("-" ++ String.mk (natDigits (m + 2) (m + 1))) = 0
      rw [nlCount_append, nlCount_mk_natDigits]
      decide

mutual

theorem Json.dumps_nl : (j : Json) → nlCount (Json.dumps j) = 0
  | .null => by decide
  | .bool true => by decide
  | .bool false => by decide
  | .num n => nlCount_intRepr n
  | .str s => nlCount_escString s
  | .arr a => by
      show nlCount ("[" ++ JArr.dumpsElts a ++ "]") = 0
      rw [nlCount_append, nlCount_append, JArr.dumpsElts_nl a]
      decide
  | .obj o => by
      show nlCount ("\x7b" ++ JObj.dumpsFields o ++ "\x7d") = 0
      rw [nlCount_append, nlCount_append, JObj.dumpsFields_nl o]
      decide

theorem JArr.dumpsElts_nl : (a : JArr) → nlCount (JArr.dumpsElts a) = 0
  | .nil => by decide
  | .cons x .nil => Json.dumps_nl x
  | .cons x (.cons y tl) => by
      show nlCount (Json.dumps x ++ ", " ++ JArr.dumpsElts (.cons y tl)) = 0
      rw [nlCount_append, nlCount_append, Json.dumps_nl x,
          JArr.dumpsElts_nl (.cons y tl)]
      decide

theorem JObj.dumpsFields_nl : (o : JObj) → nlCount (JObj.dumpsFields o) = 0
  | .nil => by decide
  | .cons k v .nil => by
      show nlCount (escString k ++ ": " ++ Json.dumps v) = 0
      rw [nlCount_append, nlCount_append, Json.dumps_nl v, nlCount_escString k]
      decide
  | .cons k v (.cons k' v' tl) => by
      show nlCount (escString k ++ ": " ++ Json.dumps v ++ ", "
        ++ JObj.dumpsFields (.cons k' v' tl)) = 0
      rw [nlCount_append, nlCount_append, nlCount_append, nlCount_append,
          Json.dumps_nl v, nlCount_escString k, JObj.dumpsFields_nl (.cons k' v' tl)]
      decide

end

/-- C5: exporting to an existing path in append mode is strictly additive.
Two successive `export_snapshot` calls on the same existing file each
append exactly one newline-terminated line (the serialized snapshot
contains no newline, so the line count grows by exactly one per call), and
the final contents are the original contents followed by the first call's
line and then the second call's line, in that order — no prior content is
truncated or rewritten. -/
theorem c5_export_snapshot_strictly_additive (all1 all2 : List SessionStats)
    (old : String) (g1 g2 : Bool) (n1 n2 : Option String) (t1 t2 : String) :
    (export_snapshot all2 true (export_snapshot all1 true old true g1 n1 t1).1
        true g2 n2 t2).1
      = (old ++ (Json.dumps (mkSnapshot all1 g1 n1 t1) ++ "\n"))
          ++ (Json.dumps (mkSnapshot all2 g2 n2 t2) ++ "\n") ∧
    nlCount (export_snapshot all1 true old true g1 n1 t1).1 = nlCount old + 1 ∧
    nlCount (export_snapshot all2 true (export_snapshot all1 true old true g1 n1 t1).1
        true g2 n2 t2).1 = nlCount old + 2 := by
  refine ⟨rfl, ?_, ?_⟩
  · show nlCount (old ++ (Json.dumps (mkSnapshot all1 g1 n1 t1) ++ "\n")) = nlCount old + 1
    rw [nlCount_append, nlCount_append, Json.dumps_nl]
    have h1 : nlCount "\n" = 1 := by decide
    omega
  · show nlCount ((old ++ (Json.dumps (mkSnapshot all1 g1 n1 t1) ++ "\n"))
      ++ (Json.dumps (mkSnapshot all2 g2 n2 t2) ++ "\n")) = nlCount old + 2
    rw [nlCount_append, nlCount_append, nlCount_append, nlCount_append,
        Json.dumps_nl, Json.dumps_nl]
    have h1 : nlCount "\n" = 1 := by decide
    omega
